import Mathlib

/-!
# Harvey 9P2000 data model (`harvey_unix.go`)

A shallow embedding of the declarations of `harvey_unix.go`: the mount flags,
the numeric identifier types, the constant tables and the `QID` / `Dir`
records, followed by the properties of the specification that concern them.

The fixed-width unsigned integers of Go are embedded as `Fin (2 ^ w)`; the signed
`int` (the underlying type of `MountFlag`) is embedded as `Int`, whose bitwise
operations are two-complement and agree with those of Go on every `int` value;
untyped Go constants are natural numbers.
-/

namespace Harvey

/-! ## Machine integer types -/

/-- Go `uint8`. -/
abbrev uint8 := Fin (2 ^ 8)

/-- Go `uint16`. -/
abbrev uint16 := Fin (2 ^ 16)

/-- Go `uint32`. -/
abbrev uint32 := Fin (2 ^ 32)

/-- Go `uint64`. -/
abbrev uint64 := Fin (2 ^ 64)

/-! ## Mount flags (source lines 7-35) -/

/-- MountFlag are flags for the mount syscall: `type MountFlag int`. -/
abbrev MountFlag := Int

/-- REPL: replace the old file by the new one. -/
def REPL : MountFlag := 0x0000

/-- BEFORE: the new directory is searched first in the union. -/
def BEFORE : MountFlag := 0x0001

/-- AFTER: like BEFORE but the new directory goes at the end of the union. -/
def AFTER : MountFlag := 0x0002

/-- CREATE: flag that can be OR-ed with any of the above. -/
def CREATE : MountFlag := 0x0004

/-- CACHE: flag, valid for mount only, that turns on caching. -/
def CACHE : MountFlag := 0x0010

/-! ## Named integer types (source lines 37-46) -/

/-- Perm: `type Perm uint32`. -/
abbrev Perm := uint32

/-- Size is the type used to encode 9P2000: `type Size uint32`. -/
abbrev Size := uint32

/-- Tag is the id field used to identify transmit messages: `type Tag uint16`. -/
abbrev Tag := uint16

/-- FID is the id of the current file: `type FID uint32`. -/
abbrev FID := uint32

/-! ## Protocol constants (source lines 48-59) -/

/-- IOHDRSZ: non-data size of the Twrite messages. -/
def IOHDRSZ : Nat := 24

/-- MSize: the default message size, `2*1048576 + IOHDRSZ` in the source. -/
def MSize : Nat := 2 * 1048576 + IOHDRSZ

/-- DefaultVersion is the 9P version string. -/
def DefaultVersion : String := "9P2000"

def NOTAG : Nat := 0xffff
def NOFID : Nat := 0xffffffff
def NOUID : Nat := 0xffffffff

/-! ## Error values (source lines 61-70) -/

def EPERM : Nat := 1
def ENOENT : Nat := 2
def EIO : Nat := 5
def EACCES : Nat := 13
def EEXIST : Nat := 17
def ENOTDIR : Nat := 20
def EINVAL : Nat := 22

/-! ## QID types (source lines 72-83) -/

/-- QTDIR: directories. -/
def QTDIR : Nat := 0x80
/-- QTAPPEND: append only files. -/
def QTAPPEND : Nat := 0x40
/-- QTEXCL: exclusive use files. -/
def QTEXCL : Nat := 0x20
/-- QTMOUNT: mounted channel. -/
def QTMOUNT : Nat := 0x10
/-- QTAUTH: authentication file. -/
def QTAUTH : Nat := 0x08
/-- QTTMP: non-backed-up file. -/
def QTTMP : Nat := 0x04
/-- QTSYMLINK: symbolic link (Unix, 9P2000.u). -/
def QTSYMLINK : Nat := 0x02
/-- QTLINK: hard link (Unix, 9P2000.u). -/
def QTLINK : Nat := 0x01
def QTFILE : Nat := 0x00

/-! ## Flags for the mode field in Topen and Tcreate messages (source lines 85-96) -/

/-- OREAD: open read-only. -/
def OREAD : Nat := 0x0
/-- OWRITE: open write-only. -/
def OWRITE : Nat := 0x1
/-- ORDWR: open read-write. -/
def ORDWR : Nat := 0x2
/-- OEXEC: execute (== read but check execute permission). -/
def OEXEC : Nat := 0x3
/-- OTRUNC: or-ed in (except for exec), truncate file first. -/
def OTRUNC : Nat := 0x10
/-- OCEXEC: or-ed in, close on exec. -/
def OCEXEC : Nat := 0x20
/-- ORCLOSE: or-ed in, remove on close. -/
def ORCLOSE : Nat := 0x40
/-- OAPPEND: or-ed in, append only. -/
def OAPPEND : Nat := 0x80
/-- OEXCL: or-ed in, exclusive client use. -/
def OEXCL : Nat := 0x1000

/-! ## File modes (source lines 98-109) -/

/-- DMDIR: mode bit for directories. -/
def DMDIR : Nat := 0x80000000
/-- DMAPPEND: mode bit for append only files. -/
def DMAPPEND : Nat := 0x40000000
/-- DMEXCL: mode bit for exclusive use files. -/
def DMEXCL : Nat := 0x20000000
/-- DMMOUNT: mode bit for mounted channel. -/
def DMMOUNT : Nat := 0x10000000
/-- DMAUTH: mode bit for authentication file. -/
def DMAUTH : Nat := 0x08000000
/-- DMTMP: mode bit for non-backed-up file. -/
def DMTMP : Nat := 0x04000000
/-- DMREAD: mode bit for read permission. -/
def DMREAD : Nat := 0x4
/-- DMWRITE: mode bit for write permission. -/
def DMWRITE : Nat := 0x2
/-- DMEXEC: mode bit for execute permission. -/
def DMEXEC : Nat := 0x1

/-! ## Records (source lines 111-134) -/

/-- A QID represents the unique identification a 9P server gives a file.
The Go field `Type` is spelled `Type_` here. -/
structure QID where
  /-- The unique identification the file server gives the file. -/
  Path : uint64
  /-- Version number for given Path. -/
  Vers : uint32
  /-- The type of the file. -/
  Type_ : uint8
deriving DecidableEq, Repr

/-- A Dir contains the metadata for a file.
The Go field `Type` is spelled `Type_` here. -/
structure Dir where
  /-- Server type. -/
  Type_ : uint16
  /-- Server subtype. -/
  Dev : uint32
  /-- Unique id from server. -/
  QID : QID
  /-- Permissions. -/
  Mode : Perm
  /-- Last read time. -/
  Atime : uint32
  /-- Last write time. -/
  Mtime : uint32
  /-- File length. -/
  Length : uint64
  /-- Last element of path. -/
  Name : String
  /-- Owner name. -/
  UID : String
  /-- Group name. -/
  GID : String
  /-- Last modifier name. -/
  Muid : String
deriving DecidableEq, Repr

/-! ## Tables of the constants, in source order -/

/-- The three mount actions, in source order. -/
def mountActions : List MountFlag := [REPL, BEFORE, AFTER]

/-- The two mount modifier bits, in source order. -/
def mountModifiers : List MountFlag := [CREATE, CACHE]

/-- Bitwise OR of a list of mount flags. -/
def orFlags (fs : List MountFlag) : MountFlag := fs.foldl Int.lor 0

/-- The four base open modes, in source order. -/
def baseModes : List Nat := [OREAD, OWRITE, ORDWR, OEXEC]

/-- The five flags that are or-ed into an open mode, in source order. -/
def openFlags : List Nat := [OTRUNC, OCEXEC, ORCLOSE, OAPPEND, OEXCL]

/-- Bitwise OR of a list of untyped constants. -/
def orAll (fs : List Nat) : Nat := fs.foldl (· ||| ·) 0

/-- The QID type bits that have a file-mode bit, paired with that bit. -/
def typeBitPairs : List (Nat × Nat) :=
  [(QTDIR, DMDIR), (QTAPPEND, DMAPPEND), (QTEXCL, DMEXCL),
   (QTMOUNT, DMMOUNT), (QTAUTH, DMAUTH), (QTTMP, DMTMP)]

/-- The Go conversion and shift `uint32(t) << 24` of an 8-bit value. -/
def shl24 (t : uint8) : Nat := (t.val <<< 24) % 2 ^ 32

/-! ## Equality of records -/

/-- The Go comparison `a == b` of two `QID` values: struct values are compared
field by field. -/
def QID.equal (a b : QID) : Bool :=
  a.Path == b.Path && a.Vers == b.Vers && a.Type_ == b.Type_

/-- The six type bits of a file mode,
`DMDIR | DMAPPEND | DMEXCL | DMMOUNT | DMAUTH | DMTMP`. -/
def dmTypeBits : Nat := DMDIR ||| DMAPPEND ||| DMEXCL ||| DMMOUNT ||| DMAUTH ||| DMTMP

/-! ## Sample values -/

/-- A `QID` value of a directory: path 1, version 1, type `QTDIR`. -/
def qidDir : QID := { Path := 1, Vers := 1, Type_ := 0x80 }

/-- A `QID` value with the path and version of `qidDir` and type `QTFILE`. -/
def qidFile : QID := { Path := 1, Vers := 1, Type_ := 0x00 }

/-- A directory `usr`: `DMDIR` in the mode and `QTDIR` in the QID type. -/
def dirUsr : Dir :=
  { Type_ := 0, Dev := 0, QID := qidDir, Mode := 0x800001ed, Atime := 0, Mtime := 0,
    Length := 0, Name := "usr", UID := "glenda", GID := "glenda", Muid := "glenda" }

/-- A directory `bin`. -/
def dirBin : Dir :=
  { Type_ := 0, Dev := 0, QID := { Path := 2, Vers := 0, Type_ := 0x80 }, Mode := 0x800001ed,
    Atime := 0, Mtime := 0, Length := 0, Name := "bin", UID := "glenda", GID := "glenda",
    Muid := "glenda" }

/-- A directory `lib`. -/
def dirLib : Dir :=
  { Type_ := 0, Dev := 0, QID := { Path := 3, Vers := 0, Type_ := 0x80 }, Mode := 0x800001ed,
    Atime := 0, Mtime := 0, Length := 0, Name := "lib", UID := "glenda", GID := "glenda",
    Muid := "glenda" }

/-- A `Dir` value whose mode has `DMDIR` set while its QID type is `QTFILE`. -/
def dirModeOnly : Dir :=
  { Type_ := 0, Dev := 0, QID := qidFile, Mode := 0x800001ed, Atime := 0, Mtime := 0,
    Length := 0, Name := "usr", UID := "glenda", GID := "glenda", Muid := "glenda" }

/-- A `Dir` value of a directory whose mode also has `DMAPPEND` set while its
QID type is `QTDIR` alone: the directory bits agree, the append bits do not. -/
def dirAppendMode : Dir :=
  { Type_ := 0, Dev := 0, QID := qidDir, Mode := 0xC00001ed, Atime := 0, Mtime := 0,
    Length := 0, Name := "usr", UID := "glenda", GID := "glenda", Muid := "glenda" }

/-! ## Field consistency of a Dir

The source file declares the `Dir` record only; no code in it produces or
checks a `Dir`. The check below follows sections 3, 4.1 and 8 of the
specification. -/

/-- Modelled from the spec: the field-consistency check of a `Dir`, absent from
the repository (which declares the record and the bit constants only). Section
4.1: "validation of field consistency (e.g., mode vs qid.type) is the
responsibility of whichever component produces a Dir [...] or consumes one";
section 8: the directory bit "must be checked (not assumed) by any Dir-producing
code path". The check compares the high byte of the mode with the QID type
under the `QTDIR` mask, in Go `(uint8(d.Mode >> 24) ^ d.QID.Type) & QTDIR == 0`. -/
def dirModeConsistent (d : Dir) : Bool :=
  (((d.Mode.val >>> 24) % 2 ^ 8) ^^^ d.QID.Type_.val) &&& QTDIR == 0

/-! ## Open-mode validation and union mounts

The source file declares the constants only; the operations below follow the
specification (section 4.2 and section 7) and the comments on the constants. -/

/-- Modelled from the spec: the open-mode validation function, absent from the
repository (which declares the mode constants and `EINVAL` only). Section 4.2:
"reject (signal `EINVAL`) any mode combining `OEXEC` with `OTRUNC`"; a mode
combines the two when it holds every bit of `OEXEC | OTRUNC`. Every other mode
is valid. -/
def validateMode (mode : Nat) : Except Nat Unit :=
  if mode &&& (OEXEC ||| OTRUNC) = OEXEC ||| OTRUNC then .error EINVAL else .ok ()

/-- Modelled from the spec: a member of a union directory, absent from the
repository: a mounted directory together with the flag of its mount (the
`CREATE` bit of the flag is what create-target resolution looks at). -/
structure Member where
  /-- The directory mounted into the union. -/
  dir : Dir
  /-- The flag the directory was mounted with. -/
  flag : MountFlag
deriving DecidableEq, Repr

/-- Modelled from the spec: a mount point `old`, absent from the repository:
the file the union is attached to and the ordered sequence of the union, first
searched member first. -/
structure MountPoint where
  /-- The file at the mount point. -/
  dir : Dir
  /-- The union at the mount point, in search order. -/
  union : List Member
deriving DecidableEq, Repr

/-- Modelled from the spec: the directory test used by `Mount`, absent from the
repository: the `QTDIR` bit of the QID type. -/
def isDir (d : Dir) : Bool := d.QID.Type_.val &&& QTDIR != 0

/-- Modelled from the spec: the search order of the union at a mount point. -/
def searchOrder (mp : MountPoint) : List Dir := mp.union.map Member.dir

/-- Modelled from the spec: `Mount(old, new, flag)`, absent from the repository
(which declares the flag constants only). Section 4.2: the action is
`flag & 0x3`; `REPL` makes the union the single-element sequence of `new`;
`BEFORE` prepends `new` and `AFTER` appends it, the prior members keeping their
order; section 7: a `BEFORE` or `AFTER` mount where either side is not a
directory signals `ENOTDIR`. The spec names no result for the action value 3;
it is rejected here with `EINVAL`. -/
def Mount (old : MountPoint) (new : Dir) (flag : MountFlag) : Except Nat MountPoint :=
  let action := Int.land flag 0x3
  if action = REPL then
    .ok { old with union := [⟨new, flag⟩] }
  else if action = BEFORE then
    if isDir old.dir && isDir new then .ok { old with union := ⟨new, flag⟩ :: old.union }
    else .error ENOTDIR
  else if action = AFTER then
    if isDir old.dir && isDir new then .ok { old with union := old.union ++ [⟨new, flag⟩] }
    else .error ENOTDIR
  else .error EINVAL

/-! ## Create-target resolution

The source file declares `CREATE` and `EPERM` only; the scan below follows the
comment on `CREATE` and section 4.2 of the specification. -/

/-- Modelled from the spec: whether a union member was mounted with the `CREATE`
modifier bit set (absent from the repository). -/
def hasCreate (m : Member) : Bool := Int.land m.flag CREATE != 0

/-- Modelled from the spec: the create-target scan over a union, absent from the
repository, for a name that exists in no member. Section 4.2: "the union members
are scanned in search order; the first member whose `CREATE` modifier bit is set
is the create target. If creation there fails [...] the whole create operation
fails immediately — no fallback to a later member. If no member has `CREATE`
set, create fails with `EPERM`-class error". The creation in a member directory
is external and passed as `createAt`. The result is the list of the directories
at which a creation was attempted, in order, and the outcome. -/
def createScan : List Member → (Dir → Except Nat Dir) → List Dir × Except Nat Dir
  | [], _ => ([], .error EPERM)
  | m :: rest, createAt =>
    if hasCreate m then ([m.dir], createAt m.dir) else createScan rest createAt

/-- Modelled from the spec: create of a nonexistent name in the union at a mount
point (absent from the repository). -/
def create (mp : MountPoint) (createAt : Dir → Except Nat Dir) : List Dir × Except Nat Dir :=
  createScan mp.union createAt

/-- The union `[X (no CREATE), Y (CREATE), Z (CREATE)]` at `usr`. -/
def unionXYZ : MountPoint :=
  { dir := dirUsr,
    union := [⟨dirUsr, BEFORE⟩, ⟨dirBin, Int.lor AFTER CREATE⟩, ⟨dirLib, Int.lor AFTER CREATE⟩] }

/-- A creation that fails with `EACCES` in `bin` and succeeds everywhere else. -/
def createFailsInBin (d : Dir) : Except Nat Dir :=
  if d = dirBin then .error EACCES else .ok d

/-! ## Further tables of the constants, in source order -/

/-- The seven error values, in source order. -/
def errorCodes : List Nat := [EPERM, ENOENT, EIO, EACCES, EEXIST, ENOTDIR, EINVAL]

/-- The eight QID type flags, in source order (`QTFILE`, which is 0, apart). -/
def qtFlags : List Nat :=
  [QTDIR, QTAPPEND, QTEXCL, QTMOUNT, QTAUTH, QTTMP, QTSYMLINK, QTLINK]

/-- The nine file-mode constants, in source order. -/
def dmConstants : List Nat :=
  [DMDIR, DMAPPEND, DMEXCL, DMMOUNT, DMAUTH, DMTMP, DMREAD, DMWRITE, DMEXEC]

/-- The low nine permission bits of a file mode: read, write and execute for
owner, group and other. -/
def permBits : Nat := 0x1FF

/-- The four or-able open flags below `OEXCL`, in source order. -/
def byteOpenFlags : List Nat := [OTRUNC, OCEXEC, ORCLOSE, OAPPEND]

/-! ## Wire layout of the fixed-width fields

The source file declares the field types only; the byte layout below follows
section 6 of the specification. -/

/-- Modelled from the spec: the little-endian encoding of a value in `n` bytes
(absent from the repository). -/
def leBytes : Nat → Nat → List Nat
  | 0, _ => []
  | n + 1, v => v % 256 :: leBytes n (v / 256)

/-- Modelled from the spec: the value of a little-endian byte sequence (absent
from the repository). -/
def leValue : List Nat → Nat
  | [] => 0
  | b :: bs => b + 256 * leValue bs

/-- Modelled from the spec: the wire form of a `QID` (absent from the
repository). Section 6: "8-byte little-endian `path`, 4-byte little-endian
`version`, 1-byte `type`"; the widths are those of the field types `uint64`,
`uint32`, `uint8`, the order is the declaration order. -/
def encodeQID (q : QID) : List Nat :=
  leBytes 8 q.Path.val ++ leBytes 4 q.Vers.val ++ leBytes 1 q.Type_.val

/-- Modelled from the spec: the wire form of the fixed-width fields of a `Dir`,
after the size prefix and before the four strings (absent from the repository).
Section 6: "2-byte `type_`, 4-byte `dev`, `QID` (13 bytes), 4-byte `mode`, 4-byte
`atime`, 4-byte `mtime`, 8-byte `length`"; the widths are those of the field
types, the order is the declaration order. -/
def encodeDirFixed (d : Dir) : List Nat :=
  leBytes 2 d.Type_.val ++ leBytes 4 d.Dev.val ++ encodeQID d.QID ++ leBytes 4 d.Mode.val ++
    leBytes 4 d.Atime.val ++ leBytes 4 d.Mtime.val ++ leBytes 8 d.Length.val

/-! ## Theorems -/

set_option maxRecDepth 100000

/-- Masking with a constant below 32 only looks at the low five bits. -/
theorem land_low5 (m k : Nat) (hk : k < 32) : m &&& k = (m % 32) &&& k := by
  have h31 : (31 : Nat) &&& k = k := by
    interval_cases k <;> rfl
  have hm : m % 32 = m &&& 31 := (Nat.and_pow_two_sub_one_eq_mod m 5).symm
  rw [hm, Nat.land_assoc, h31]

/-- C1: for every action `a` of REPL, BEFORE, AFTER and every subset `m` of the
modifier bits CREATE, CACHE, the flag `f = a | m` has `f & 0x3 = a`, has CREATE
set iff CREATE is in `m`, and has CACHE set iff CACHE is in `m`; the three
actions are pairwise distinct. -/
theorem mountFlag_action_and_modifiers_recovered :
    (∀ a ∈ mountActions, ∀ m ∈ mountModifiers.sublists,
      Int.land (Int.lor a (orFlags m)) 0x3 = a ∧
      (Int.land (Int.lor a (orFlags m)) CREATE ≠ 0 ↔ CREATE ∈ m) ∧
      (Int.land (Int.lor a (orFlags m)) CACHE ≠ 0 ↔ CACHE ∈ m)) ∧
    REPL ≠ BEFORE ∧ REPL ≠ AFTER ∧ BEFORE ≠ AFTER := by
  decide

/-- C2: for every base mode `b` of OREAD, OWRITE, ORDWR, OEXEC and every subset
`s` of the five or-able flags, the mode `m = b | OR(s)` has `m & 0x3 = b` and has
a flag set iff the flag is in `s`; the base modes are 0, 1, 2, 3; the flags are
pairwise disjoint single bits; `m & 0x3 = OEXEC` only when `b = OEXEC`, although
`OEXEC = OWRITE | ORDWR`. -/
theorem openMode_base_and_flags_recovered :
    (∀ b ∈ baseModes, ∀ s ∈ openFlags.sublists,
      (b ||| orAll s) &&& 0x3 = b ∧
      (∀ F ∈ openFlags, ((b ||| orAll s) &&& F ≠ 0 ↔ F ∈ s)) ∧
      ((b ||| orAll s) &&& 0x3 = OEXEC ↔ b = OEXEC)) ∧
    baseModes = [0, 1, 2, 3] ∧
    openFlags = [2 ^ 4, 2 ^ 5, 2 ^ 6, 2 ^ 7, 2 ^ 12] ∧
    openFlags.Pairwise (fun F G => F &&& G = 0) ∧
    OEXEC = OWRITE ||| ORDWR := by
  decide

/-- C3: each of the six type bits of a file mode is the QID type bit shifted
left by 24, and for every 8-bit QID type `t` and each pair (QTx, DMx),
`uint32(t) << 24` has DMx set iff `t` has QTx set. -/
theorem dm_bits_mirror_qt_bits :
    (DMDIR = QTDIR <<< 24 ∧ DMAPPEND = QTAPPEND <<< 24 ∧ DMEXCL = QTEXCL <<< 24 ∧
      DMMOUNT = QTMOUNT <<< 24 ∧ DMAUTH = QTAUTH <<< 24 ∧ DMTMP = QTTMP <<< 24) ∧
    ∀ t : uint8, ∀ p ∈ typeBitPairs, (shl24 t &&& p.2 ≠ 0 ↔ t.val &&& p.1 ≠ 0) := by
  decide

/-- C4, as stated, fails: `qidDir` and `qidFile` have the same path and the
same version and are different `QID` values (they differ in the type). -/
theorem qid_same_path_vers_not_equal :
    qidDir.Path = qidFile.Path ∧ qidDir.Vers = qidFile.Vers ∧
      qidDir.equal qidFile = false ∧ qidDir ≠ qidFile := by
  decide

/-- C4, amended: two `QID` values are identical (equal under `==`, equal as
values) iff their paths, versions and types are equal, and this identity is
reflexive and transitive. -/
theorem qid_equal_iff_all_fields (q1 q2 q3 : QID) :
    (q1.equal q2 = true ↔ q1.Path = q2.Path ∧ q1.Vers = q2.Vers ∧ q1.Type_ = q2.Type_) ∧
    (q1.equal q2 = true ↔ q1 = q2) ∧
    q1.equal q1 = true ∧
    (q1.equal q2 = true → q2.equal q3 = true → q1.equal q3 = true) := by
  have key : ∀ a b : QID, a.equal b = true ↔ a = b := by
    intro a b
    cases a; cases b
    simp [QID.equal, and_assoc]
  refine ⟨?_, key q1 q2, (key q1 q1).2 rfl, ?_⟩
  · rw [key]
    constructor
    · rintro rfl; exact ⟨rfl, rfl, rfl⟩
    · cases q1; cases q2; simp
  · intro h1 h2
    exact (key q1 q3).2 (((key q1 q2).1 h1).trans ((key q2 q3).1 h2))

/-- C5, as stated, fails: `dirModeOnly` is a `Dir` value whose mode has the
directory bit set while its QID type has not. -/
theorem dir_mode_bit_without_qid_bit :
    dirModeOnly.Mode.val &&& DMDIR ≠ 0 ∧ ¬ (dirModeOnly.QID.Type_.val &&& QTDIR ≠ 0) := by
  decide

/-- C5, amended: the `Dir` type does not enforce the invariant; it holds of
exactly the `Dir` values that pass the field-consistency check: for every `Dir`
value the check succeeds iff the directory bit of the mode is set exactly when
the directory bit of the QID type is set. The check accepts `dirUsr` and
`dirAppendMode` and refuses `dirModeOnly`. -/
theorem dir_check_iff_directory_bits_agree (d : Dir) :
    (dirModeConsistent d = true ↔
      (d.Mode.val &&& DMDIR ≠ 0 ↔ d.QID.Type_.val &&& QTDIR ≠ 0)) ∧
    dirModeConsistent dirUsr = true ∧
    dirModeConsistent dirAppendMode = true ∧
    dirModeConsistent dirModeOnly = false := by
  refine ⟨?_, by decide, by decide, by decide⟩
  have hbit : ∀ x k : Nat, (x &&& 2 ^ k ≠ 0) ↔ x.testBit k = true := by
    intro x k
    rw [Nat.and_two_pow]
    cases x.testBit k <;> simp
  have hD : DMDIR = 2 ^ 31 := by decide
  have hQ : QTDIR = 2 ^ 7 := by decide
  have hbyte : ((d.Mode.val >>> 24) % 2 ^ 8).testBit 7 = d.Mode.val.testBit 31 := by
    rw [Nat.testBit_mod_two_pow, Nat.testBit_shiftRight]
    simp
  have hx : (((d.Mode.val >>> 24) % 2 ^ 8) ^^^ d.QID.Type_.val).testBit 7
      = xor (d.Mode.val.testBit 31) (d.QID.Type_.val.testBit 7) := by
    rw [Nat.testBit_xor, hbyte]
  have hzero : ((((d.Mode.val >>> 24) % 2 ^ 8) ^^^ d.QID.Type_.val) &&& QTDIR = 0) ↔
      xor (d.Mode.val.testBit 31) (d.QID.Type_.val.testBit 7) = false := by
    rw [hQ, Nat.and_two_pow, hx]
    cases xor (d.Mode.val.testBit 31) (d.QID.Type_.val.testBit 7) <;> simp
  unfold dirModeConsistent
  rw [beq_iff_eq, hzero, hD, hQ, hbit, hbit]
  cases d.Mode.val.testBit 31 <;> cases d.QID.Type_.val.testBit 7 <;> simp

/-- C6: `MSize = 2*1048576 + 24 = 2097176`, `IOHDRSZ = 24`, the payload
`MSize - IOHDRSZ` is 2097152 bytes, and `MSize` is a value of the 32-bit type
`Size`. -/
theorem msize_value_and_payload :
    MSize = 2 * 1048576 + 24 ∧ MSize = 2097176 ∧ IOHDRSZ = 24 ∧
      MSize - IOHDRSZ = 2097152 ∧ MSize < 2 ^ 32 ∧ ∃ s : Size, s.val = MSize := by
  refine ⟨by decide, by decide, by decide, by decide, by decide, ⟨⟨MSize, by decide⟩, rfl⟩⟩

/-- C7 does not hold of the code: `MSize` is 2097176 while `1048576 + IOHDRSZ`,
the value its comment gives, is 1048600. -/
theorem msize_differs_from_its_comment :
    MSize = 2097176 ∧ 1048576 + IOHDRSZ = 1048600 ∧ MSize ≠ 1048576 + IOHDRSZ := by
  decide

/-- C8: validation rejects with `EINVAL` exactly the modes whose base
`mode & 0x3` is `OEXEC` and that have `OTRUNC` set, and accepts every other
mode; `OEXEC | OTRUNC` is rejected, `OREAD` and `ORDWR | OAPPEND` are valid. -/
theorem validateMode_rejects_exec_trunc (m : Nat) :
    (validateMode m = .error EINVAL ↔ (m &&& 0x3 = OEXEC ∧ m &&& OTRUNC ≠ 0)) ∧
    (validateMode m = .ok () ↔ ¬ (m &&& 0x3 = OEXEC ∧ m &&& OTRUNC ≠ 0)) ∧
    validateMode (OEXEC ||| OTRUNC) = .error EINVAL ∧
    validateMode OREAD = .ok () ∧
    validateMode (ORDWR ||| OAPPEND) = .ok () := by
  have hbits : (m &&& (OEXEC ||| OTRUNC) = OEXEC ||| OTRUNC) ↔
      (m &&& 0x3 = OEXEC ∧ m &&& OTRUNC ≠ 0) := by
    rw [land_low5 m (OEXEC ||| OTRUNC) (by decide), land_low5 m 0x3 (by decide),
      land_low5 m OTRUNC (by decide)]
    have hr : m % 32 < 32 := Nat.mod_lt _ (by decide)
    generalize m % 32 = r at hr
    interval_cases r <;> decide
  refine ⟨?_, ?_, rfl, rfl, rfl⟩
  · rw [← hbits]
    unfold validateMode
    split <;> simp_all
  · rw [← hbits]
    unfold validateMode
    split <;> simp_all

/-- C9: for every mount point `old`, whatever its prior union, and all `A` and
`B`, a `REPL` mount of `A` followed by a `REPL` mount of `B` succeeds and leaves
the union at `old` the single-element sequence of `B`. -/
theorem mount_repl_twice (old : MountPoint) (A B : Dir) (fA fB : MountFlag)
    (hA : Int.land fA 0x3 = REPL) (hB : Int.land fB 0x3 = REPL) :
    (Mount old A fA >>= fun o => Mount o B fB)
        = .ok { dir := old.dir, union := [⟨B, fB⟩] } ∧
      searchOrder { dir := old.dir, union := [⟨B, fB⟩] } = [B] := by
  refine ⟨?_, rfl⟩
  simp [Mount, hA, hB, bind, Except.bind]

/-- Witness of C9: `bin` then `lib` mounted with `REPL` over a union of two. -/
theorem mount_repl_twice_witness :
    (Int.land REPL 0x3 = REPL ∧ Int.land REPL 0x3 = REPL) ∧
      ((Mount ⟨dirUsr, [⟨dirUsr, REPL⟩, ⟨dirLib, AFTER⟩]⟩ dirBin REPL
          >>= fun o => Mount o dirLib REPL)
        = .ok { dir := dirUsr, union := [⟨dirLib, REPL⟩] } ∧
      searchOrder { dir := dirUsr, union := [⟨dirLib, REPL⟩] } = [dirLib]) :=
  ⟨by decide,
    mount_repl_twice ⟨dirUsr, [⟨dirUsr, REPL⟩, ⟨dirLib, AFTER⟩]⟩ dirBin dirLib REPL REPL
      (by decide) (by decide)⟩

/-- C10: for every prior union `p` at a directory `old` and all directories `A`
and `B`, a `BEFORE` mount of `A` followed by a `BEFORE` mount of `B` succeeds and
yields the search order `[B, A] ++ p`. -/
theorem mount_before_twice (old : MountPoint) (A B : Dir) (fA fB : MountFlag)
    (hold : isDir old.dir = true) (hdA : isDir A = true) (hdB : isDir B = true)
    (hA : Int.land fA 0x3 = BEFORE) (hB : Int.land fB 0x3 = BEFORE) :
    ∃ o, (Mount old A fA >>= fun o1 => Mount o1 B fB) = .ok o ∧
      searchOrder o = [B, A] ++ searchOrder old := by
  refine ⟨{ dir := old.dir, union := ⟨B, fB⟩ :: ⟨A, fA⟩ :: old.union }, ?_, ?_⟩
  · have hne : BEFORE ≠ REPL := by decide
    simp [Mount, hA, hB, hne, hold, hdA, hdB, bind, Except.bind]
  · simp [searchOrder]

/-- Witness of C10: `bin` then `lib` mounted `BEFORE` at `usr`, whose prior
union is `usr` itself. -/
theorem mount_before_twice_witness :
    (isDir dirUsr = true ∧ isDir dirBin = true ∧ isDir dirLib = true ∧
        Int.land BEFORE 0x3 = BEFORE ∧ Int.land (Int.lor BEFORE CREATE) 0x3 = BEFORE) ∧
      ∃ o, (Mount ⟨dirUsr, [⟨dirUsr, REPL⟩]⟩ dirBin BEFORE
              >>= fun o1 => Mount o1 dirLib (Int.lor BEFORE CREATE)) = .ok o ∧
        searchOrder o = [dirLib, dirBin] ++ searchOrder ⟨dirUsr, [⟨dirUsr, REPL⟩]⟩ :=
  ⟨by decide,
    mount_before_twice ⟨dirUsr, [⟨dirUsr, REPL⟩]⟩ dirBin dirLib BEFORE (Int.lor BEFORE CREATE)
      (by decide) (by decide) (by decide) (by decide) (by decide)⟩

/-- C11: for every prior union `p` at a directory `old` and all directories `A`
and `B`, an `AFTER` mount of `A` followed by an `AFTER` mount of `B` succeeds and
yields the search order `p ++ [A, B]`. -/
theorem mount_after_twice (old : MountPoint) (A B : Dir) (fA fB : MountFlag)
    (hold : isDir old.dir = true) (hdA : isDir A = true) (hdB : isDir B = true)
    (hA : Int.land fA 0x3 = AFTER) (hB : Int.land fB 0x3 = AFTER) :
    ∃ o, (Mount old A fA >>= fun o1 => Mount o1 B fB) = .ok o ∧
      searchOrder o = searchOrder old ++ [A, B] := by
  refine ⟨{ dir := old.dir, union := (old.union ++ [⟨A, fA⟩]) ++ [⟨B, fB⟩] }, ?_, ?_⟩
  · have h1 : AFTER ≠ REPL := by decide
    have h2 : AFTER ≠ BEFORE := by decide
    simp [Mount, hA, hB, h1, h2, hold, hdA, hdB, bind, Except.bind]
  · simp [searchOrder]

/-- Witness of C11: `bin` then `lib` mounted `AFTER` at `usr`, whose prior union
is `usr` itself. -/
theorem mount_after_twice_witness :
    (isDir dirUsr = true ∧ isDir dirBin = true ∧ isDir dirLib = true ∧
        Int.land AFTER 0x3 = AFTER ∧ Int.land (Int.lor AFTER CREATE) 0x3 = AFTER) ∧
      ∃ o, (Mount ⟨dirUsr, [⟨dirUsr, REPL⟩]⟩ dirBin AFTER
              >>= fun o1 => Mount o1 dirLib (Int.lor AFTER CREATE)) = .ok o ∧
        searchOrder o = searchOrder ⟨dirUsr, [⟨dirUsr, REPL⟩]⟩ ++ [dirBin, dirLib] :=
  ⟨by decide,
    mount_after_twice ⟨dirUsr, [⟨dirUsr, REPL⟩]⟩ dirBin dirLib AFTER (Int.lor AFTER CREATE)
      (by decide) (by decide) (by decide) (by decide) (by decide)⟩

/-- The scan skips a prefix of members without `CREATE`. -/
theorem createScan_skip (pre rest : List Member) (createAt : Dir → Except Nat Dir)
    (hpre : ∀ x ∈ pre, hasCreate x = false) :
    createScan (pre ++ rest) createAt = createScan rest createAt := by
  induction pre with
  | nil => rfl
  | cons x xs ih =>
    have hx : hasCreate x = false := hpre x (List.mem_cons_self x xs)
    have hxs : ∀ y ∈ xs, hasCreate y = false := fun y hy => hpre y (List.mem_cons_of_mem x hy)
    simp [createScan, hx, ih hxs]

/-- C12: in a union whose first member with `CREATE` set is `m` (every member
before it has `CREATE` clear), the create of a nonexistent name attempts the
creation at `m` only and its outcome is the outcome of that attempt, so a
failure there is the failure of the create; when no member has `CREATE` set,
nothing is attempted and the create fails with `EPERM`. In the union
`[X (no CREATE), Y (CREATE), Z (CREATE)]` the target is `Y`, and when the
creation at `Y` fails the create fails and `Z` is not attempted. -/
theorem create_targets_first_create_member (old : Dir) (pre post : List Member) (m : Member)
    (createAt : Dir → Except Nat Dir) :
    ((∀ x ∈ pre, hasCreate x = false) → hasCreate m = true →
      create ⟨old, pre ++ m :: post⟩ createAt = ([m.dir], createAt m.dir)) ∧
    ((∀ x ∈ pre, hasCreate x = false) →
      create ⟨old, pre⟩ createAt = ([], .error EPERM)) ∧
    create unionXYZ createAt = ([dirBin], createAt dirBin) ∧
    create unionXYZ createFailsInBin = ([dirBin], .error EACCES) := by
  refine ⟨?_, ?_, ?_, ?_⟩
  · intro hpre hm
    simp [create, createScan_skip pre (m :: post) createAt hpre, createScan, hm]
  · intro hpre
    have h := createScan_skip pre [] createAt hpre
    rw [List.append_nil] at h
    simp [create, h, createScan]
  · have h1 : hasCreate ⟨dirUsr, BEFORE⟩ = false := by decide
    have h2 : hasCreate ⟨dirBin, Int.lor AFTER CREATE⟩ = true := by decide
    simp [create, unionXYZ, createScan, h1, h2]
  · have h1 : hasCreate ⟨dirUsr, BEFORE⟩ = false := by decide
    have h2 : hasCreate ⟨dirBin, Int.lor AFTER CREATE⟩ = true := by decide
    simp [create, unionXYZ, createScan, h1, h2, createFailsInBin]

/-- C13: `NOTAG = 0xffff` is the largest value of the 16-bit type `Tag`, and
`NOFID = 0xffffffff` and `NOUID = 0xffffffff` are the largest 32-bit values: each
is a value of its type without truncation, every `Tag` is at most `NOTAG` and
every `FID` is at most `NOFID`. -/
theorem sentinels_are_largest_values :
    NOTAG = 0xffff ∧ NOFID = 0xffffffff ∧ NOUID = 0xffffffff ∧
    NOTAG = 2 ^ 16 - 1 ∧ NOFID = 2 ^ 32 - 1 ∧ NOUID = 2 ^ 32 - 1 ∧
    NOTAG % 2 ^ 16 = NOTAG ∧ NOFID % 2 ^ 32 = NOFID ∧ NOUID % 2 ^ 32 = NOUID ∧
    (∃ t : Tag, t.val = NOTAG) ∧ (∃ f : FID, f.val = NOFID) ∧
    (∀ t : Tag, t.val ≤ NOTAG) ∧ (∀ f : FID, f.val ≤ NOFID) := by
  refine ⟨rfl, rfl, rfl, by decide, by decide, by decide, by decide, by decide, by decide,
    ⟨⟨NOTAG, by decide⟩, rfl⟩, ⟨⟨NOFID, by decide⟩, rfl⟩, ?_, ?_⟩
  · intro t
    have h := t.isLt
    have hn : NOTAG = 65535 := rfl
    omega
  · intro f
    have h := f.isLt
    have hn : NOFID = 4294967295 := rfl
    omega

/-- C14: the error values are `EPERM=1, ENOENT=2, EIO=5, EACCES=13, EEXIST=17,
ENOTDIR=20, EINVAL=22`; they are pairwise distinct and none is 0. -/
theorem error_codes_distinct_nonzero :
    (EPERM = 1 ∧ ENOENT = 2 ∧ EIO = 5 ∧ EACCES = 13 ∧ EEXIST = 17 ∧ ENOTDIR = 20 ∧
      EINVAL = 22) ∧
    errorCodes = [1, 2, 5, 13, 17, 20, 22] ∧
    errorCodes.Pairwise (fun a b => a ≠ b) ∧
    (∀ e ∈ errorCodes, e ≠ 0) := by
  decide

/-- An `n`-byte little-endian encoding has `n` bytes. -/
theorem leBytes_length (n v : Nat) : (leBytes n v).length = n := by
  induction n generalizing v with
  | zero => rfl
  | succ k ih => simp [leBytes, ih]

/-- Every byte of a little-endian encoding is below 256. -/
theorem leBytes_lt (n v : Nat) : ∀ b ∈ leBytes n v, b < 256 := by
  induction n generalizing v with
  | zero => simp [leBytes]
  | succ k ih =>
    intro b hb
    simp only [leBytes, List.mem_cons] at hb
    rcases hb with rfl | hb
    · exact Nat.mod_lt _ (by decide)
    · exact ih _ b hb

/-- A value below `256 ^ n` is recovered from its `n`-byte encoding. -/
theorem leValue_leBytes (n v : Nat) (hv : v < 256 ^ n) : leValue (leBytes n v) = v := by
  induction n generalizing v with
  | zero =>
    have h0 : v = 0 := by simpa using hv
    simp [leBytes, leValue, h0]
  | succ k ih =>
    have hk : v / 256 < 256 ^ k := by
      rw [Nat.div_lt_iff_lt_mul (by decide)]
      rw [pow_succ] at hv
      exact hv
    simp only [leBytes, leValue, ih _ hk]
    omega

/-- C15: a `QID` is written as `Path` (8 bytes), `Vers` (4 bytes), `Type`
(1 byte), 13 bytes in all, and the fixed-width fields of a `Dir` as `Type` (2),
`Dev` (4), `QID` (13), `Mode` (4), `Atime` (4), `Mtime` (4), `Length` (8),
39 bytes in all; every field is recovered from its bytes at its offset, so the
widths hold the field types. -/
theorem wire_layout_of_fixed_fields (d : Dir) :
    encodeQID d.QID
      = leBytes 8 d.QID.Path.val ++ leBytes 4 d.QID.Vers.val ++ leBytes 1 d.QID.Type_.val ∧
    (encodeQID d.QID).length = 8 + 4 + 1 ∧ (encodeQID d.QID).length = 13 ∧
    (encodeDirFixed d).length = 2 + 4 + 13 + 4 + 4 + 4 + 8 ∧ (encodeDirFixed d).length = 39 ∧
    (∀ b ∈ encodeDirFixed d, b < 256) ∧
    leValue ((encodeQID d.QID).take 8) = d.QID.Path.val ∧
    leValue (((encodeQID d.QID).drop 8).take 4) = d.QID.Vers.val ∧
    leValue (((encodeQID d.QID).drop 12).take 1) = d.QID.Type_.val ∧
    leValue ((encodeDirFixed d).take 2) = d.Type_.val ∧
    leValue (((encodeDirFixed d).drop 2).take 4) = d.Dev.val ∧
    ((encodeDirFixed d).drop 6).take 13 = encodeQID d.QID ∧
    leValue (((encodeDirFixed d).drop 19).take 4) = d.Mode.val ∧
    leValue (((encodeDirFixed d).drop 23).take 4) = d.Atime.val ∧
    leValue (((encodeDirFixed d).drop 27).take 4) = d.Mtime.val ∧
    leValue (((encodeDirFixed d).drop 31).take 8) = d.Length.val := by
  have hq : (encodeQID d.QID).length = 13 := by simp [encodeQID, leBytes_length]
  have hPath := leValue_leBytes 8 d.QID.Path.val d.QID.Path.isLt
  have hVers := leValue_leBytes 4 d.QID.Vers.val d.QID.Vers.isLt
  have hType := leValue_leBytes 1 d.QID.Type_.val d.QID.Type_.isLt
  have hTy := leValue_leBytes 2 d.Type_.val d.Type_.isLt
  have hDev := leValue_leBytes 4 d.Dev.val d.Dev.isLt
  have hMode := leValue_leBytes 4 d.Mode.val d.Mode.isLt
  have hAt := leValue_leBytes 4 d.Atime.val d.Atime.isLt
  have hMt := leValue_leBytes 4 d.Mtime.val d.Mtime.isLt
  have hLen := leValue_leBytes 8 d.Length.val d.Length.isLt
  refine ⟨rfl, hq, hq, ?_, ?_, ?_, ?_, ?_, ?_, ?_, ?_, ?_, ?_, ?_, ?_, ?_⟩
  · simp [encodeDirFixed, hq, leBytes_length]
  · simp [encodeDirFixed, hq, leBytes_length]
  · intro b hb
    simp only [encodeDirFixed, encodeQID, List.mem_append] at hb
    rcases hb with ((((((h | h) | ((h | h) | h)) | h) | h) | h) | h) <;> exact leBytes_lt _ _ b h
  all_goals
    simp [encodeDirFixed, encodeQID, List.take_append_eq_append_take,
      List.drop_append_eq_append_drop, List.drop_eq_nil_of_le, List.take_of_length_le,
      leBytes_length, hPath, hVers, hType, hTy, hDev, hMode, hAt, hMt, hLen]
/-- Masking with a constant below `2 ^ n` only looks at the low `n` bits. -/
theorem land_mod_two_pow (n m k : Nat) (hk : k < 2 ^ n) : m &&& k = (m % 2 ^ n) &&& k := by
  have hmask : (2 ^ n - 1) &&& k = k := by
    rw [Nat.land_comm]
    exact Nat.and_pow_two_sub_one_of_lt_two_pow hk
  have hm : m % 2 ^ n = m &&& (2 ^ n - 1) := (Nat.and_pow_two_sub_one_eq_mod m n).symm
  rw [hm, Nat.land_assoc, hmask]

/-- C16: the eight QID type flags are the eight distinct single bits of a byte
and their OR is `0xff`; every 8-bit type is the OR of exactly one subset of
them (the flags set in it); `QTFILE` is 0, so `t & QTFILE = 0` for every type
`t`, and `t = QTFILE` iff no flag is set in `t`. -/
theorem qid_type_flags_partition_byte :
    qtFlags = [2 ^ 7, 2 ^ 6, 2 ^ 5, 2 ^ 4, 2 ^ 3, 2 ^ 2, 2 ^ 1, 2 ^ 0] ∧
    qtFlags.Pairwise (fun F G => F ≠ G) ∧
    orAll qtFlags = 0xff ∧
    (∀ t : uint8, orAll (qtFlags.filter (fun F => t.val &&& F != 0)) = t.val) ∧
    (∀ t : uint8, ∃! s, s ∈ qtFlags.sublists ∧ orAll s = t.val) ∧
    QTFILE = 0 ∧
    (∀ t : uint8, t.val &&& QTFILE = 0) ∧
    (∀ t : uint8, t.val = QTFILE ↔ ∀ F ∈ qtFlags, t.val &&& F = 0) := by
  have hA : ∀ t : uint8, orAll (qtFlags.filter (fun F => t.val &&& F != 0)) = t.val := by
    decide
  have hB : ∀ s ∈ qtFlags.sublists, qtFlags.filter (fun F => orAll s &&& F != 0) = s := by
    decide
  refine ⟨by decide, by decide, by decide, hA, ?_, rfl, by decide, by decide⟩
  intro t
  refine ⟨qtFlags.filter (fun F => t.val &&& F != 0), ⟨?_, hA t⟩, ?_⟩
  · exact List.mem_sublists.2 (List.filter_sublist _)
  · rintro s ⟨hs, hst⟩
    rw [← hB s hs, hst]

/-- C17: every `DM*` constant is a value of the 32-bit type `Perm`; the six
type bits are `0xFC000000` and share no bit with the nine permission bits
`0x1FF`; `DMREAD`, `DMWRITE`, `DMEXEC` are the distinct bits 4, 2, 1 with OR 7;
for every `Perm`, setting the permission bits to any value leaves the type bits
as they were, and setting the type bits leaves the permission bits as they
were. -/
theorem perm_type_bits_independent_of_permission_bits (p : Perm) (n : Nat) :
    (∀ c ∈ dmConstants, c < 2 ^ 32) ∧
    dmTypeBits = 0xFC000000 ∧ dmTypeBits &&& permBits = 0 ∧
    (DMREAD = 4 ∧ DMWRITE = 2 ∧ DMEXEC = 1 ∧ DMREAD ||| DMWRITE ||| DMEXEC = 7) ∧
    (DMREAD ≠ DMWRITE ∧ DMREAD ≠ DMEXEC ∧ DMWRITE ≠ DMEXEC) ∧
    permBits = (DMREAD ||| DMWRITE ||| DMEXEC) <<< 6 ||| (DMREAD ||| DMWRITE ||| DMEXEC) <<< 3
      ||| (DMREAD ||| DMWRITE ||| DMEXEC) ∧
    ((p.val &&& (2 ^ 32 - 1 - permBits)) ||| (n &&& permBits)) &&& dmTypeBits
      = p.val &&& dmTypeBits ∧
    ((p.val &&& (2 ^ 32 - 1 - dmTypeBits)) ||| (n &&& dmTypeBits)) &&& permBits
      = p.val &&& permBits := by
  refine ⟨by decide, by decide, by decide, by decide, by decide, by decide, ?_, ?_⟩
  · have h1 : (2 ^ 32 - 1 - permBits) &&& dmTypeBits = dmTypeBits := by decide
    have h2 : permBits &&& dmTypeBits = 0 := by decide
    rw [Nat.land_comm _ dmTypeBits, Nat.and_or_distrib_left, Nat.land_comm dmTypeBits,
      Nat.land_comm dmTypeBits, Nat.land_assoc, Nat.land_assoc, h1, h2, Nat.and_zero,
      Nat.or_zero]
  · have h1 : (2 ^ 32 - 1 - dmTypeBits) &&& permBits = permBits := by decide
    have h2 : dmTypeBits &&& permBits = 0 := by decide
    rw [Nat.land_comm _ permBits, Nat.and_or_distrib_left, Nat.land_comm permBits,
      Nat.land_comm permBits, Nat.land_assoc, Nat.land_assoc, h1, h2, Nat.and_zero,
      Nat.or_zero]

/-- Masking any flag with zero gives zero. -/
theorem int_land_zero (f : Int) : Int.land f 0 = 0 := by
  cases f with
  | ofNat m =>
    show ((m &&& 0 : Nat) : Int) = 0
    simp
  | negSucc m =>
    show ((Nat.ldiff 0 m : Nat) : Int) = 0
    simp [Nat.ldiff]

/-- C18: `BEFORE | AFTER = 3` is a `MountFlag` value whose action `flag & 0x3`
is none of `REPL`, `BEFORE`, `AFTER`; `REPL` is 0, so `flag & REPL = 0` for every
flag (also for `BEFORE` and `AFTER`), while comparing `flag & 0x3` with `REPL`
holds exactly for the flags built on `REPL`. -/
theorem mountFlag_invalid_action_and_repl_mask :
    Int.lor BEFORE AFTER = 3 ∧
    Int.land (Int.lor BEFORE AFTER) 0x3 = 3 ∧
    Int.land (Int.lor BEFORE AFTER) 0x3 ∉ mountActions ∧
    REPL = 0 ∧
    (∀ f : MountFlag, Int.land f REPL = 0) ∧
    (Int.land BEFORE REPL = Int.land REPL REPL ∧ Int.land AFTER REPL = Int.land REPL REPL) ∧
    (∀ a ∈ mountActions, ∀ m ∈ mountModifiers.sublists,
      (Int.land (Int.lor a (orFlags m)) 0x3 = REPL ↔ a = REPL)) := by
  refine ⟨by decide, by decide, by decide, rfl, ?_, by decide, by decide⟩
  intro f
  exact int_land_zero f

/-- C19: every open mode built from a base mode and a subset of `OTRUNC`,
`OCEXEC`, `ORCLOSE`, `OAPPEND` is at most `0xF3` and fits in one byte; every mode
with `OEXCL` set is at least `0x1000` and does not fit in one byte; truncating
a mode to 8 bits clears `OEXCL` and leaves every bit of the low byte as it was,
so a mode built from the constants with `OEXCL` truncates to the same mode
without `OEXCL`. -/
theorem openMode_byte_truncation (m : Nat) :
    (∀ b ∈ baseModes, ∀ s ∈ byteOpenFlags.sublists,
      b ||| orAll s ≤ 0xF3 ∧ b ||| orAll s < 2 ^ 8 ∧
      (b ||| orAll s ||| OEXCL) % 2 ^ 8 = b ||| orAll s) ∧
    OEXCL = 0x1000 ∧
    (m &&& OEXCL ≠ 0 → 0x1000 ≤ m ∧ ¬ m < 2 ^ 8) ∧
    (m % 2 ^ 8) &&& OEXCL = 0 ∧
    (∀ k, k < 2 ^ 8 → (m % 2 ^ 8) &&& k = m &&& k) := by
  refine ⟨by decide, rfl, ?_, ?_, ?_⟩
  · intro h
    have hle : m &&& OEXCL ≤ m := Nat.and_le_left
    have hpow : m &&& OEXCL = (m.testBit 12).toNat * 2 ^ 12 := Nat.and_two_pow m 12
    cases hb : m.testBit 12 with
    | false =>
      rw [hb] at hpow
      exact absurd (by simpa using hpow) h
    | true =>
      rw [hb] at hpow
      have h4096 : m &&& OEXCL = 4096 := by simpa using hpow
      omega
  · have hlt : m % 2 ^ 8 < 2 ^ 12 := lt_trans (Nat.mod_lt _ (by decide)) (by decide)
    have hpow : (m % 2 ^ 8) &&& OEXCL = ((m % 2 ^ 8).testBit 12).toNat * 2 ^ 12 :=
      Nat.and_two_pow _ 12
    rw [hpow, Nat.testBit_lt_two_pow hlt]
    rfl
  · intro k hk
    exact (land_mod_two_pow 8 m k hk).symm
end Harvey
